import Mathlib

/-!
Verification of the mask editing and encoding subsystem of the
`ai_image_gen` repository (frontend `MaskEditor.jsx`, `App.jsx`, and the
backend `/api/edit` dimension validation).

The embedding translates the source into Lean:

* a stroke (`Line`) mirrors the JS object `{ tool, points, brushSize, id }`
  created in `handleMouseDown`; `points` is the flat coordinate list
  `[x0, y0, x1, y1, ...]` exactly as stored by the source;
* `rasterize` mirrors `generateMask`: background fill, per-stroke skip of
  strokes with fewer than 4 coordinates, per-axis scaling
  `scaleX = imageSize.width / stageSize.width` (same for Y), stroke width
  `brushSize * max scaleX scaleY`, round-cap round-join polyline coverage
  (a pixel is covered when its distance to some segment is at most half
  the line width), last-drawn-stroke-wins compositing, and final
  binarization with the `> 127` channel threshold;
* `step` mirrors the React component handlers (`handleMouseDown`,
  `handleMouseMove`, `handleMouseUp`, `handleUndo`, `clearMask`,
  `handleToggleInvert`, the `imageUrl` effect) together with the mask
  regeneration effect and the debounce timer, modelled as a pending flag
  consumed by a `timerFire` event. The timer callback is modelled
  faithfully to the source's hook wiring: `debouncedGenerateMask` is a
  `useCallback` with an empty dependency list, so its `setTimeout` always
  calls the first render's `generateMask` closure (`image` undefined,
  `lines` empty), which returns at its guard — a timer fire therefore
  consumes the pending timeout without reporting any mask.

Canvas anti-aliasing at the exact stroke boundary is idealised: coverage
is exact geometric distance-to-polyline, which is what the binarization
step reduces the canvas output to, within rounding tolerance.
-/

/-- RGB color as produced by the mask canvas (`'white'` / `'black'` fills,
then binarized to the two extremes; the alpha channel is forced to 255 in
both branches of the binarizer and carries no information). -/
structure Color where
  r : ℕ
  g : ℕ
  b : ℕ
deriving DecidableEq, Repr

def Color.white : Color := ⟨255, 255, 255⟩

def Color.black : Color := ⟨0, 0, 0⟩

/-- Drawing tool of a stroke: the source strings `'brush'` and `'eraser'`. -/
inductive Tool where
  | brush
  | eraser
deriving DecidableEq, Repr

/-- One stroke, mirroring the JS object created in `handleMouseDown`:
`{ tool, points: [pos.x, pos.y], brushSize, id: Date.now() }`.
`points` is the flat display-space coordinate list `[x0, y0, x1, y1, ...]`. -/
structure Line where
  tool : Tool
  points : List ℚ
  brushSize : ℚ
  id : ℕ
deriving DecidableEq, Repr

/-- Group the flat coordinate list into (x, y) vertices, as the drawing
loop of `generateMask` does (`points[i]`, `points[i+1]` for even `i`). -/
def toPairs : List ℚ → List (ℚ × ℚ)
  | x :: y :: rest => (x, y) :: toPairs rest
  | _ => []

/-- Squared distance from `p` to the segment `[a, b]`, computed via the
clamped orthogonal projection; for rational inputs the minimiser is
rational, so this is exact and computable. -/
def segDistSq (p a b : ℚ × ℚ) : ℚ :=
  let dx := b.1 - a.1
  let dy := b.2 - a.2
  let len2 := dx * dx + dy * dy
  if len2 = 0 then
    (p.1 - a.1) * (p.1 - a.1) + (p.2 - a.2) * (p.2 - a.2)
  else
    let t := ((p.1 - a.1) * dx + (p.2 - a.2) * dy) / len2
    let tc := max 0 (min 1 t)
    let qx := a.1 + tc * dx
    let qy := a.2 + tc * dy
    (p.1 - qx) * (p.1 - qx) + (p.2 - qy) * (p.2 - qy)

/-- Consecutive vertex pairs of a polyline. -/
def segsOf (ps : List (ℚ × ℚ)) : List ((ℚ × ℚ) × (ℚ × ℚ)) :=
  ps.zip ps.tail

/-- A round-capped, round-joined stroked polyline of total width `w`
covers pixel `p` exactly when `p` lies within distance `w / 2` of some
segment (this stadium-shaped coverage is the canvas `lineCap: 'round'`,
`lineJoin: 'round'` stroke geometry). -/
def polyCovers (ps : List (ℚ × ℚ)) (w : ℚ) (p : ℚ × ℚ) : Bool :=
  (segsOf ps).any fun ab => decide (segDistSq p ab.1 ab.2 ≤ (w / 2) * (w / 2))

/-- Coverage test of one stroke at scale factors `sx, sy`: every stored
display-space vertex is mapped to native space per axis
(`points[i] * scaleX`, `points[i+1] * scaleY`), and the line width is
`line.brushSize * max scaleX scaleY`, as in `generateMask`. -/
def lineCovers (sx sy : ℚ) (l : Line) (p : ℚ × ℚ) : Bool :=
  polyCovers ((toPairs l.points).map fun q => (q.1 * sx, q.2 * sy))
    (l.brushSize * max sx sy) p

/-- The skip guard of the drawing loop:
`if (!line.points || line.points.length < 4) return;` — a stroke draws
only when it has at least 4 coordinates, i.e. at least 2 points. -/
def drawable (l : Line) : Bool := decide (4 ≤ l.points.length)

/-- `backgroundColor = isMaskInverted ? 'white' : 'black'`. -/
def bgColor (inverted : Bool) : Color :=
  if inverted then Color.white else Color.black

/-- `strokeStyle`: brush strokes draw in the stroke color
(`isMaskInverted ? 'black' : 'white'`), eraser strokes draw in the
background color. -/
def toolColor (inverted : Bool) : Tool → Color
  | Tool.brush => if inverted then Color.black else Color.white
  | Tool.eraser => bgColor inverted

/-- The binarization pass: a pixel whose channels include a value above
127 is forced to white, otherwise to black (alpha forced to 255 in both
cases). -/
def binarize (c : Color) : Color :=
  if 127 < c.r ∨ 127 < c.g ∨ 127 < c.b then Color.white else Color.black

/-- Swap the two mask colors. -/
def invertBW (c : Color) : Color :=
  if c = Color.white then Color.black
  else if c = Color.black then Color.white
  else c

/-- Pre-binarization color of pixel `p`: the canvas is filled with the
background color, then the strokes are replayed in insertion order, each
drawable covering stroke overwriting the pixel with its tool color
(later strokes win, exactly the canvas painting order). -/
def pixelColorAux (inverted : Bool) (sx sy : ℚ) (lines : List Line)
    (p : ℚ × ℚ) : Color :=
  lines.foldl
    (fun c l => if drawable l && lineCovers sx sy l p then toolColor inverted l.tool else c)
    (bgColor inverted)

/-- The emitted mask bitmap: `canvas.width`/`canvas.height` are the
native image dimensions; `pixel` gives the binarized color at each
integer grid point. -/
structure Mask where
  width : ℕ
  height : ℕ
  pixel : ℕ → ℕ → Color

/-- State of the `MaskEditor` component (the `useState`/`useRef` cells
plus the last value handed to `onMaskChange`). `pendingMaskGen` models a
live `maskGenerationTimeoutRef` debounce timer. -/
structure EditorState where
  imageLoaded : Bool
  imageSize : ℕ × ℕ
  stageSize : ℚ × ℚ
  lines : List Line
  linesHistory : List (List Line)
  isDrawing : Bool
  tool : Tool
  brushSize : ℚ
  isMaskInverted : Bool
  pendingMaskGen : Bool
  reportedMask : Option Mask

/-- `generateMask`: returns nothing when no image is loaded or there are
no strokes (`if (!stageRef.current || !image || lines.length === 0)
return;`); otherwise produces the binarized bitmap at native dimensions
with `scaleX = imageSize.width / stageSize.width` and
`scaleY = imageSize.height / stageSize.height`. -/
def rasterize (s : EditorState) : Option Mask :=
  if s.imageLoaded && !s.lines.isEmpty then
    let sx : ℚ := (s.imageSize.1 : ℚ) / s.stageSize.1
    let sy : ℚ := (s.imageSize.2 : ℚ) / s.stageSize.2
    some ⟨s.imageSize.1, s.imageSize.2,
      fun x y => binarize (pixelColorAux s.isMaskInverted sx sy s.lines ((x : ℚ), (y : ℚ)))⟩
  else
    none

/-- The mask regeneration effect (deps `[lines, isMaskInverted, image, ...]`):
with an image and at least one stroke it (re)schedules the debounced
`generateMask`; with an image and no strokes it cancels any pending
timer and reports `null`. -/
def regenEffect (s : EditorState) : EditorState :=
  if s.imageLoaded && !s.lines.isEmpty then
    { s with pendingMaskGen := true }
  else if s.imageLoaded then
    { s with pendingMaskGen := false, reportedMask := none }
  else
    s

/-- Events driving the component: pointer handlers, toolbar actions, an
image-URL change, and the debounce timer firing. `mouseDown` carries the
fresh stroke id (`Date.now()` in the source). -/
inductive Event where
  | mouseDown (pos : ℚ × ℚ) (id : ℕ)
  | mouseMove (pos : ℚ × ℚ)
  | mouseUp
  | undo
  | clear
  | toggleInvert
  | imageChange
  | timerFire
deriving DecidableEq

/-- One step of the component. Each branch mirrors the corresponding
handler body, followed by the regeneration effect whenever the handler
changed one of the effect dependencies (`lines`, `isMaskInverted`,
image). `timerFire` is the `setTimeout` callback of
`debouncedGenerateMask`: because that callback is memoised by
`useCallback` with an empty dependency list, it permanently invokes the
first render's `generateMask` closure, which captured `image` still
undefined and `lines` empty and therefore always returns at its guard
(`if (!stageRef.current || !image || lines.length === 0) return;`) —
firing the timer consumes it and never hands a bitmap to
`onMaskChange`. -/
def step (s : EditorState) : Event → EditorState
  | Event.mouseDown pos id =>
      if s.imageLoaded then
        regenEffect { s with
          isDrawing := true,
          linesHistory := s.linesHistory ++ [s.lines],
          lines := s.lines ++ [⟨s.tool, [pos.1, pos.2], s.brushSize, id⟩] }
      else s
  | Event.mouseMove pos =>
      if s.isDrawing && s.imageLoaded then
        match s.lines.getLast? with
        | none => s
        | some l =>
            regenEffect { s with
              lines := s.lines.dropLast ++ [⟨l.tool, l.points ++ [pos.1, pos.2], l.brushSize, l.id⟩] }
      else s
  | Event.mouseUp => { s with isDrawing := false }
  | Event.undo =>
      if s.imageLoaded then
        match s.linesHistory.getLast? with
        | none => s
        | some prev =>
            regenEffect { s with lines := prev, linesHistory := s.linesHistory.dropLast }
      else s
  | Event.clear =>
      if s.imageLoaded then
        regenEffect { s with
          linesHistory := if s.lines.isEmpty then s.linesHistory else s.linesHistory ++ [s.lines],
          lines := [],
          isMaskInverted := false,
          pendingMaskGen := false,
          reportedMask := none }
      else s
  | Event.toggleInvert =>
      if s.imageLoaded then
        regenEffect { s with isMaskInverted := !s.isMaskInverted }
      else s
  | Event.imageChange =>
      regenEffect { s with
        imageLoaded := false,
        lines := [],
        linesHistory := [],
        isMaskInverted := false,
        pendingMaskGen := false,
        reportedMask := none }
  | Event.timerFire =>
      if s.pendingMaskGen then { s with pendingMaskGen := false } else s

/-- Run a list of events from a state. -/
def runEvents (s : EditorState) (es : List Event) : EditorState :=
  es.foldl step s

/-- The slice of `App` state touched by `handleGenerate`'s dimension
check: the error banner text, the loading flag, and the editing data
(`file`, `mask`, `result`) that must survive a rejected submission. -/
structure AppUiState where
  errorMsg : String
  loading : Bool
  fileId : Option ℕ
  maskData : Option String
  resultData : Option String
deriving DecidableEq, Repr

/-- `handleGenerate` for the image tab with a mask present: compare the
natural dimensions of the uploaded image and of the mask; on mismatch
set the error banner and stop loading without ever calling
`proceedGenerate` (the returned Bool is whether the request is sent). -/
def handleGenerateCheck (st : AppUiState) (imgW imgH maskW maskH : ℕ) :
    AppUiState × Bool :=
  if imgW ≠ maskW ∨ imgH ≠ maskH then
    ({ st with errorMsg := "Image and mask must be the same size!", loading := false }, false)
  else
    (st, true)

/-- Backend `/api/edit` dimension validation (`sharp` metadata check):
when a mask is present and its dimensions differ from the image's, the
request is rejected with HTTP 400 before any form data is built for the
external API. -/
def editDimensionCheck (imgW imgH : ℕ) (maskMeta : Option (ℕ × ℕ)) :
    Except (ℕ × String) Unit :=
  match maskMeta with
  | some (mw, mh) =>
      if imgW ≠ mw ∨ imgH ≠ mh then
        Except.error (400, "Image and mask must be the same size!")
      else
        Except.ok ()
  | none => Except.ok ()

/-! ## Helper lemmas -/

/-- Default mask used only as a `getD` fallback when naming concrete
rasterizer outputs. -/
def defaultMask : Mask := ⟨0, 0, fun _ _ => Color.black⟩

/-- The regeneration effect only touches the debounce flag and the
reported mask, never the strokes or the history. -/
theorem regenEffect_lines (s : EditorState) :
    (regenEffect s).lines = s.lines ∧
    (regenEffect s).linesHistory = s.linesHistory ∧
    (regenEffect s).isMaskInverted = s.isMaskInverted ∧
    (regenEffect s).isDrawing = s.isDrawing ∧
    (regenEffect s).imageLoaded = s.imageLoaded := by
  unfold regenEffect
  split
  · exact ⟨rfl, rfl, rfl, rfl, rfl⟩
  · split
    · exact ⟨rfl, rfl, rfl, rfl, rfl⟩
    · exact ⟨rfl, rfl, rfl, rfl, rfl⟩

/-- A member of the last element of the history stack is a member of some
snapshot on the stack. -/
theorem mem_of_getLast?_eq {α : Type} {l : List α} {a : α}
    (h : l.getLast? = some a) : a ∈ l := by
  obtain ⟨hne, rfl⟩ := List.mem_getLast?_eq_getLast (show a ∈ l.getLast? by simp [h])
  exact List.getLast_mem hne

/-! ## C1: single-point strokes -/

/-- State used to refute C1: a loaded 4×4 image displayed at 4×4 (scale
factor 1 on both axes) with a single brush stroke consisting of exactly
one point at display position (2, 2) and brush size 2. -/
def baseState : EditorState where
  imageLoaded := true
  imageSize := (4, 4)
  stageSize := (4, 4)
  lines := []
  linesHistory := []
  isDrawing := false
  tool := Tool.brush
  brushSize := 2
  isMaskInverted := false
  pendingMaskGen := false
  reportedMask := none

def c1State : EditorState :=
  { baseState with lines := [⟨Tool.brush, [2, 2], 2, 0⟩] }

/-- C1 counterexample: the claim predicts a filled disk of radius
`brushRadius * max scaleX scaleY = 2` centered at native (2, 2), so in
particular the pixel at the center must carry the stroke color (white in
the non-inverted convention). The code instead skips every stroke with
fewer than 4 coordinates, so the emitted mask is background (black) at
the center: no disk is drawn for a single-point stroke. -/
theorem c1_single_point_counterexample :
    (rasterize c1State).map (fun m => m.pixel 2 2) = some Color.black ∧
    Color.black ≠ Color.white := by
  refine ⟨?_, by decide⟩
  rfl

/-- C1 amended: a stroke with exactly one point (2 stored coordinates)
is skipped by the rasterizer's `points.length < 4` guard; every pixel of
the rasterized bitmap is as if the stroke were absent, so no dab or disk
is drawn for it. -/
theorem c1_single_point_stroke_skipped
    (inverted : Bool) (sx sy : ℚ) (pre post : List Line) (l : Line)
    (p : ℚ × ℚ) (h : l.points.length = 2) :
    pixelColorAux inverted sx sy (pre ++ l :: post) p =
      pixelColorAux inverted sx sy (pre ++ post) p := by
  have hd : drawable l = false := by simp [drawable, h]
  simp [pixelColorAux, List.foldl_append, hd]

theorem c1_single_point_stroke_skipped_witness :
    (⟨Tool.brush, [2, 2], 2, 0⟩ : Line).points.length = 2 ∧
    pixelColorAux false 1 1 ([] ++ (⟨Tool.brush, [2, 2], 2, 0⟩ : Line) :: []) (0, 0) =
      pixelColorAux false 1 1 ([] ++ []) (0, 0) :=
  ⟨rfl, c1_single_point_stroke_skipped false 1 1 [] [] ⟨Tool.brush, [2, 2], 2, 0⟩ (0, 0) rfl⟩

/-! ## C5: zero strokes report "no mask" -/

/-- C5: with an image loaded and an empty Stroke Model, `generateMask`
itself produces nothing, and the regeneration effect cancels any pending
debounce and reports `null`, distinguishing "drew nothing" from an
all-background mask. -/
theorem c5_empty_strokes_report_no_mask (s : EditorState)
    (h1 : s.imageLoaded = true) (h2 : s.lines = []) :
    rasterize s = none ∧
    (regenEffect s).reportedMask = none ∧
    (regenEffect s).pendingMaskGen = false := by
  refine ⟨?_, ?_, ?_⟩ <;> simp [rasterize, regenEffect, h1, h2]

theorem c5_empty_strokes_report_no_mask_witness :
    baseState.imageLoaded = true ∧ baseState.lines = [] ∧
    (rasterize baseState = none ∧
      (regenEffect baseState).reportedMask = none ∧
      (regenEffect baseState).pendingMaskGen = false) :=
  ⟨rfl, rfl, c5_empty_strokes_report_no_mask baseState rfl rfl⟩

/-! ## C9: image/mask dimension mismatch -/

/-- C9: a submission whose mask dimensions differ from the image's
native dimensions is stopped in the frontend (`handleGenerate` sets the
user-visible error banner, clears the loading flag, and never calls
`proceedGenerate`, so no request is sent) with the file, mask and result
state untouched; and independently the backend `/api/edit` rejects such
a request with HTTP 400 before building the form for the external API. -/
theorem c9_dimension_mismatch_rejected (st : AppUiState)
    (imgW imgH maskW maskH : ℕ) (h : imgW ≠ maskW ∨ imgH ≠ maskH) :
    (handleGenerateCheck st imgW imgH maskW maskH).2 = false ∧
    (handleGenerateCheck st imgW imgH maskW maskH).1.errorMsg =
      "Image and mask must be the same size!" ∧
    (handleGenerateCheck st imgW imgH maskW maskH).1.loading = false ∧
    (handleGenerateCheck st imgW imgH maskW maskH).1.fileId = st.fileId ∧
    (handleGenerateCheck st imgW imgH maskW maskH).1.maskData = st.maskData ∧
    (handleGenerateCheck st imgW imgH maskW maskH).1.resultData = st.resultData ∧
    editDimensionCheck imgW imgH (some (maskW, maskH)) =
      Except.error (400, "Image and mask must be the same size!") := by
  refine ⟨?_, ?_, ?_, ?_, ?_, ?_, ?_⟩ <;>
    simp [handleGenerateCheck, editDimensionCheck, if_pos h]

theorem c9_dimension_mismatch_rejected_witness :
    ((1024 : ℕ) ≠ 512 ∨ (1024 : ℕ) ≠ 512) ∧
    (handleGenerateCheck ⟨"", true, some 1, some "m", none⟩ 1024 1024 512 512).2 = false ∧
    editDimensionCheck 1024 1024 (some (512, 512)) =
      Except.error (400, "Image and mask must be the same size!") :=
  ⟨Or.inl (by decide),
    (c9_dimension_mismatch_rejected ⟨"", true, some 1, some "m", none⟩
      1024 1024 512 512 (Or.inl (by decide))).1,
    (c9_dimension_mismatch_rejected ⟨"", true, some 1, some "m", none⟩
      1024 1024 512 512 (Or.inl (by decide))).2.2.2.2.2.2⟩

/-! ## C2: native dimensions and per-axis scaling -/

/-- C2: whenever `generateMask` emits a bitmap, (a) its dimensions are
exactly the native image dimensions, (b) each pixel is obtained from the
stroke replay with `scaleX = nativeWidth / displayWidth` and
`scaleY = nativeHeight / displayHeight` computed independently per axis,
and (c) the coverage test of each stroke uses exactly the vertex list
obtained by mapping every display point through
`(x, y) ↦ (x * scaleX, y * scaleY)`. -/
theorem c2_native_dims_and_scaling (s : EditorState) (m : Mask)
    (h : rasterize s = some m) :
    m.width = s.imageSize.1 ∧ m.height = s.imageSize.2 ∧
    (∀ x y : ℕ, m.pixel x y =
      binarize (pixelColorAux s.isMaskInverted
        ((s.imageSize.1 : ℚ) / s.stageSize.1)
        ((s.imageSize.2 : ℚ) / s.stageSize.2) s.lines ((x : ℚ), (y : ℚ)))) ∧
    (∀ (l : Line) (p : ℚ × ℚ),
      lineCovers ((s.imageSize.1 : ℚ) / s.stageSize.1)
          ((s.imageSize.2 : ℚ) / s.stageSize.2) l p =
        polyCovers
          ((toPairs l.points).map fun q =>
            (q.1 * ((s.imageSize.1 : ℚ) / s.stageSize.1),
             q.2 * ((s.imageSize.2 : ℚ) / s.stageSize.2)))
          (l.brushSize *
            max ((s.imageSize.1 : ℚ) / s.stageSize.1)
              ((s.imageSize.2 : ℚ) / s.stageSize.2)) p) := by
  unfold rasterize at h
  split at h
  · cases h
    exact ⟨rfl, rfl, fun x y => rfl, fun l p => rfl⟩
  · cases h

/-- A 1024×1024 native image displayed at 512×256 with one two-point
brush stroke, to witness C2 at unequal per-axis scale factors. -/
def c2State : EditorState :=
  { baseState with
    imageSize := (1024, 1024),
    stageSize := (512, 256),
    lines := [⟨Tool.brush, [0, 0, 3, 3], 2, 5⟩] }

def c2Mask : Mask := (rasterize c2State).getD defaultMask

theorem c2_native_dims_and_scaling_witness :
    rasterize c2State = some c2Mask ∧
    c2Mask.width = 1024 ∧ c2Mask.height = 1024 :=
  ⟨rfl, (c2_native_dims_and_scaling c2State c2Mask rfl).1,
    (c2_native_dims_and_scaling c2State c2Mask rfl).2.1⟩

/-! ## C3: inversion swaps the two colors -/

theorem toolColor_bw (inverted : Bool) (t : Tool) :
    toolColor inverted t = Color.white ∨ toolColor inverted t = Color.black := by
  cases inverted <;> cases t <;> simp [toolColor, bgColor]

theorem toolColor_invert (t : Tool) :
    toolColor true t = invertBW (toolColor false t) := by
  cases t <;> decide

/-- Replaying the strokes from swapped accumulators yields swapped
results: the per-stroke drawing colors under the inverted flag are
exactly the swaps of the non-inverted ones. -/
theorem foldl_paint_invert (sx sy : ℚ) (p : ℚ × ℚ) :
    ∀ (lines : List Line) (c : Color),
      lines.foldl
        (fun c l => if drawable l && lineCovers sx sy l p then toolColor true l.tool else c)
        (invertBW c) =
      invertBW (lines.foldl
        (fun c l => if drawable l && lineCovers sx sy l p then toolColor false l.tool else c)
        c)
  | [], c => rfl
  | l :: ls, c => by
    simp only [List.foldl_cons]
    by_cases hc : (drawable l && lineCovers sx sy l p) = true
    · rw [if_pos hc, if_pos hc, toolColor_invert l.tool]
      exact foldl_paint_invert sx sy p ls (toolColor false l.tool)
    · rw [if_neg hc, if_neg hc]
      exact foldl_paint_invert sx sy p ls c

theorem pixelColorAux_invert (sx sy : ℚ) (lines : List Line) (p : ℚ × ℚ) :
    pixelColorAux true sx sy lines p = invertBW (pixelColorAux false sx sy lines p) := by
  have hbg : bgColor true = invertBW (bgColor false) := by decide
  unfold pixelColorAux
  rw [hbg]
  exact foldl_paint_invert sx sy p lines (bgColor false)

/-- The replay only ever produces the two mask colors. -/
theorem foldl_paint_bw (inverted : Bool) (sx sy : ℚ) (p : ℚ × ℚ) :
    ∀ (lines : List Line) (c : Color), c = Color.white ∨ c = Color.black →
      lines.foldl
        (fun c l => if drawable l && lineCovers sx sy l p then toolColor inverted l.tool else c)
        c = Color.white ∨
      lines.foldl
        (fun c l => if drawable l && lineCovers sx sy l p then toolColor inverted l.tool else c)
        c = Color.black
  | [], _, h => h
  | l :: ls, c, h => by
    simp only [List.foldl_cons]
    by_cases hc : (drawable l && lineCovers sx sy l p) = true
    · rw [if_pos hc]
      exact foldl_paint_bw inverted sx sy p ls (toolColor inverted l.tool)
        (toolColor_bw inverted l.tool)
    · rw [if_neg hc]
      exact foldl_paint_bw inverted sx sy p ls c h

theorem pixelColorAux_bw (inverted : Bool) (sx sy : ℚ) (lines : List Line)
    (p : ℚ × ℚ) :
    pixelColorAux inverted sx sy lines p = Color.white ∨
    pixelColorAux inverted sx sy lines p = Color.black := by
  have h0 : bgColor inverted = Color.white ∨ bgColor inverted = Color.black := by
    cases inverted <;> simp [bgColor]
  exact foldl_paint_bw inverted sx sy p lines (bgColor inverted) h0

/-- Shape of every bitmap `generateMask` emits. -/
theorem rasterize_eq_some {s : EditorState} {m : Mask}
    (h : rasterize s = some m) :
    m = ⟨s.imageSize.1, s.imageSize.2,
      fun x y => binarize (pixelColorAux s.isMaskInverted
        ((s.imageSize.1 : ℚ) / s.stageSize.1)
        ((s.imageSize.2 : ℚ) / s.stageSize.2)
        s.lines ((x : ℚ), (y : ℚ)))⟩ := by
  unfold rasterize at h
  split at h
  · exact (Option.some.inj h).symm
  · cases h

/-- C3: rasterizing the same Stroke Model with the inversion flag set
produces, pixel for pixel, the color-swapped bitmap of the run with the
flag unset; the set of white ("on") pixels of the non-inverted run is
exactly the set of black pixels of the inverted run; and toggling the
flag changes neither the strokes nor the undo history. -/
theorem c3_inversion_swaps_colors (s : EditorState) (m0 m1 : Mask)
    (h0 : rasterize { s with isMaskInverted := false } = some m0)
    (h1 : rasterize { s with isMaskInverted := true } = some m1) :
    (∀ x y : ℕ, m1.pixel x y = invertBW (m0.pixel x y)) ∧
    (∀ x y : ℕ, m0.pixel x y = Color.white ↔ m1.pixel x y = Color.black) ∧
    (step s Event.toggleInvert).lines = s.lines ∧
    (step s Event.toggleInvert).linesHistory = s.linesHistory := by
  have hm0 := rasterize_eq_some h0
  have hm1 := rasterize_eq_some h1
  subst hm0
  subst hm1
  refine ⟨fun x y => ?_, fun x y => ?_, ?_, ?_⟩
  · show binarize (pixelColorAux true ((s.imageSize.1 : ℚ) / s.stageSize.1)
        ((s.imageSize.2 : ℚ) / s.stageSize.2) s.lines ((x : ℚ), (y : ℚ))) =
      invertBW (binarize (pixelColorAux false ((s.imageSize.1 : ℚ) / s.stageSize.1)
        ((s.imageSize.2 : ℚ) / s.stageSize.2) s.lines ((x : ℚ), (y : ℚ))))
    rw [pixelColorAux_invert]
    rcases pixelColorAux_bw false ((s.imageSize.1 : ℚ) / s.stageSize.1)
        ((s.imageSize.2 : ℚ) / s.stageSize.2) s.lines ((x : ℚ), (y : ℚ)) with hw | hb
    · rw [hw]; decide
    · rw [hb]; decide
  · show binarize (pixelColorAux false ((s.imageSize.1 : ℚ) / s.stageSize.1)
        ((s.imageSize.2 : ℚ) / s.stageSize.2) s.lines ((x : ℚ), (y : ℚ))) = Color.white ↔
      binarize (pixelColorAux true ((s.imageSize.1 : ℚ) / s.stageSize.1)
        ((s.imageSize.2 : ℚ) / s.stageSize.2) s.lines ((x : ℚ), (y : ℚ))) = Color.black
    rw [pixelColorAux_invert]
    rcases pixelColorAux_bw false ((s.imageSize.1 : ℚ) / s.stageSize.1)
        ((s.imageSize.2 : ℚ) / s.stageSize.2) s.lines ((x : ℚ), (y : ℚ)) with hw | hb
    · rw [hw]; decide
    · rw [hb]; decide
  · show (step s Event.toggleInvert).lines = s.lines
    simp only [step]
    by_cases h : s.imageLoaded = true
    · rw [if_pos h]; exact (regenEffect_lines _).1
    · rw [if_neg h]
  · show (step s Event.toggleInvert).linesHistory = s.linesHistory
    simp only [step]
    by_cases h : s.imageLoaded = true
    · rw [if_pos h]; exact (regenEffect_lines _).2.1
    · rw [if_neg h]

/-- A paint stroke plus a crossing eraser stroke, used to witness C3 on
both flag values. -/
def c3State : EditorState :=
  { baseState with
    lines := [⟨Tool.brush, [0, 0, 3, 3], 2, 1⟩, ⟨Tool.eraser, [0, 3, 3, 0], 2, 2⟩] }

def c3MaskF : Mask := (rasterize { c3State with isMaskInverted := false }).getD defaultMask

def c3MaskT : Mask := (rasterize { c3State with isMaskInverted := true }).getD defaultMask

theorem c3_inversion_swaps_colors_witness :
    rasterize { c3State with isMaskInverted := false } = some c3MaskF ∧
    rasterize { c3State with isMaskInverted := true } = some c3MaskT ∧
    (∀ x y : ℕ, c3MaskT.pixel x y = invertBW (c3MaskF.pixel x y)) :=
  ⟨rfl, rfl, (c3_inversion_swaps_colors c3State c3MaskF c3MaskT rfl rfl).1⟩

/-! ## C4: stroke immutability after release -/

/-- Trace refuting C4: draw a full stroke (press at (1,1), move to (2,2),
release), then press again, hit Undo while the pointer is still down, and
move again. -/
def c4Up : EditorState :=
  runEvents baseState
    [Event.mouseDown (1, 1) 10, Event.mouseMove (2, 2), Event.mouseUp]

def c4Final : EditorState :=
  runEvents c4Up [Event.mouseDown (3, 3) 11, Event.undo, Event.mouseMove (0, 0)]

/-- C4 counterexample: after the pointer release the stroke with id 10
has points `[1,1,2,2]` and is no longer active, yet the later event
sequence press / undo / move (all of them handler invocations the
component accepts, since `handleUndo` does not check `isDrawing`)
restores that released stroke via undo and then appends `(0,0)` to it:
its points become `[1,1,2,2,0,0]`. A released stroke is thus modified by
a later operation. -/
theorem c4_released_stroke_mutated_counterexample :
    c4Up.isDrawing = false ∧
    c4Up.lines = [⟨Tool.brush, [1, 1, 2, 2], 2, 10⟩] ∧
    c4Final.lines = [⟨Tool.brush, [1, 1, 2, 2, 0, 0], 2, 10⟩] ∧
    ([1, 1, 2, 2, 0, 0] : List ℚ) ≠ ([1, 1, 2, 2] : List ℚ) := by
  refine ⟨by decide, by decide, by decide, by decide⟩

/-- C4 amended: pointer-moves while a stroke is active append exactly one
point to the last stroke of the model and touch nothing else; every
other operation never alters any stroke's points — it can only keep a
stroke, drop it, restore it verbatim from a history snapshot, or create
a fresh one-point stroke. The original claim fails only because an undo
performed while `isDrawing` holds can make the restored snapshot's last
stroke — a released stroke — the target of subsequent pointer-moves. -/
theorem c4_points_mutation_only_by_active_move (s : EditorState) (e : Event)
    (lp : Line) (hmem : lp ∈ (step s e).lines) :
    lp ∈ s.lines ∨
    (∃ snap, snap ∈ s.linesHistory ∧ lp ∈ snap) ∨
    (∃ pos id, e = Event.mouseDown pos id ∧ lp.points = [pos.1, pos.2]) ∨
    (∃ pos l, e = Event.mouseMove pos ∧ s.isDrawing = true ∧
      s.lines.getLast? = some l ∧ lp.points = l.points ++ [pos.1, pos.2] ∧
      (step s e).lines = s.lines.dropLast ++ [lp]) := by
  cases e with
  | mouseDown pos id =>
      by_cases h : s.imageLoaded = true
      · simp only [step, if_pos h] at hmem
        rw [(regenEffect_lines _).1] at hmem
        have hmem2 : lp ∈ s.lines ++ [⟨s.tool, [pos.1, pos.2], s.brushSize, id⟩] := hmem
        rcases List.mem_append.mp hmem2 with h1 | h2
        · exact Or.inl h1
        · right; right; left
          refine ⟨pos, id, rfl, ?_⟩
        -- placeholder
          have h3 : lp = ⟨s.tool, [pos.1, pos.2], s.brushSize, id⟩ :=
            List.mem_singleton.mp h2
          rw [h3]
      · simp only [step, if_neg h] at hmem
        exact Or.inl hmem
  | mouseMove pos =>
      by_cases h : (s.isDrawing && s.imageLoaded) = true
      · cases hg : s.lines.getLast? with
        | none =>
            simp only [step, if_pos h, hg] at hmem
            exact Or.inl hmem
        | some l =>
            simp only [step, if_pos h, hg] at hmem
            rw [(regenEffect_lines _).1] at hmem
            have hmem2 : lp ∈ s.lines.dropLast ++
                [⟨l.tool, l.points ++ [pos.1, pos.2], l.brushSize, l.id⟩] := hmem
            rcases List.mem_append.mp hmem2 with h1 | h2
            · exact Or.inl (List.mem_of_mem_dropLast h1)
            · right; right; right
              have h3 : lp = ⟨l.tool, l.points ++ [pos.1, pos.2], l.brushSize, l.id⟩ :=
                List.mem_singleton.mp h2
              have hd : s.isDrawing = true := by
                have h4 := h
                rw [Bool.and_eq_true] at h4
                exact h4.1
              refine ⟨pos, l, rfl, hd, rfl, by rw [h3], ?_⟩
              simp only [step, if_pos h, hg]
              rw [(regenEffect_lines _).1, h3]
      · simp only [step, if_neg h] at hmem
        exact Or.inl hmem
  | mouseUp =>
      exact Or.inl hmem
  | undo =>
      by_cases h : s.imageLoaded = true
      · cases hg : s.linesHistory.getLast? with
        | none =>
            simp only [step, if_pos h, hg] at hmem
            exact Or.inl hmem
        | some prev =>
            simp only [step, if_pos h, hg] at hmem
            rw [(regenEffect_lines _).1] at hmem
            have hmem2 : lp ∈ prev := hmem
            exact Or.inr (Or.inl ⟨prev, mem_of_getLast?_eq hg, hmem2⟩)
      · simp only [step, if_neg h] at hmem
        exact Or.inl hmem
  | clear =>
      by_cases h : s.imageLoaded = true
      · simp only [step, if_pos h] at hmem
        rw [(regenEffect_lines _).1] at hmem
        have hmem2 : lp ∈ ([] : List Line) := hmem
        simp at hmem2
      · simp only [step, if_neg h] at hmem
        exact Or.inl hmem
  | toggleInvert =>
      by_cases h : s.imageLoaded = true
      · simp only [step, if_pos h] at hmem
        rw [(regenEffect_lines _).1] at hmem
        exact Or.inl hmem
      · simp only [step, if_neg h] at hmem
        exact Or.inl hmem
  | imageChange =>
      simp only [step] at hmem
      rw [(regenEffect_lines _).1] at hmem
      have hmem2 : lp ∈ ([] : List Line) := hmem
      simp at hmem2
  | timerFire =>
      by_cases h : s.pendingMaskGen = true
      · simp only [step, if_pos h] at hmem
        exact Or.inl hmem
      · simp only [step, if_neg h] at hmem
        exact Or.inl hmem

def c4wLine : Line := ⟨Tool.brush, [1, 1, 2, 2], 2, 10⟩

def c4wState : EditorState := { baseState with lines := [c4wLine] }

theorem c4_points_mutation_only_by_active_move_witness :
    c4wLine ∈ (step c4wState Event.mouseUp).lines ∧
    (c4wLine ∈ c4wState.lines ∨
      (∃ snap, snap ∈ c4wState.linesHistory ∧ c4wLine ∈ snap) ∨
      (∃ pos id, Event.mouseUp = Event.mouseDown pos id ∧ c4wLine.points = [pos.1, pos.2]) ∨
      (∃ pos l, Event.mouseUp = Event.mouseMove pos ∧ c4wState.isDrawing = true ∧
        c4wState.lines.getLast? = some l ∧ c4wLine.points = l.points ++ [pos.1, pos.2] ∧
        (step c4wState Event.mouseUp).lines = c4wState.lines.dropLast ++ [c4wLine])) :=
  ⟨by decide,
    c4_points_mutation_only_by_active_move c4wState Event.mouseUp c4wLine (by decide)⟩

/-! ## C6: clear -/

def c6State : EditorState := { baseState with isMaskInverted := true }

/-- C6 counterexample: `clearMask` pushes a snapshot only when the
Stroke Model is non-empty (`if (lines.length > 0)`), so clearing a state
with zero strokes leaves the history stack without the new snapshot the
claim requires for every state. -/
theorem c6_clear_empty_no_snapshot_counterexample :
    (step c6State Event.clear).linesHistory = [] ∧
    (step c6State Event.clear).linesHistory ≠
      c6State.linesHistory ++ [c6State.lines] := by
  refine ⟨by decide, by decide⟩

/-- C6 amended: `clear()` snapshots the current Stroke Model onto the
history stack only when it is non-empty; in all cases it then empties
the model, resets the inversion flag to its default (off) regardless of
its prior value, cancels any pending debounced rasterization, reports
"no mask", and the subsequent rasterization still reports "no mask". -/
theorem c6_clear_amended (s : EditorState) (h : s.imageLoaded = true) :
    (step s Event.clear).lines = [] ∧
    (step s Event.clear).isMaskInverted = false ∧
    (step s Event.clear).pendingMaskGen = false ∧
    (step s Event.clear).reportedMask = none ∧
    rasterize (step s Event.clear) = none ∧
    (step s Event.clear).linesHistory =
      (if s.lines.isEmpty then s.linesHistory else s.linesHistory ++ [s.lines]) := by
  refine ⟨?_, ?_, ?_, ?_, ?_, ?_⟩ <;>
    simp [step, regenEffect, rasterize, h]

def c6wState : EditorState :=
  { baseState with
    lines := [⟨Tool.brush, [1, 1, 2, 2], 2, 3⟩],
    isMaskInverted := true,
    pendingMaskGen := true }

theorem c6_clear_amended_witness :
    c6wState.imageLoaded = true ∧
    ((step c6wState Event.clear).lines = [] ∧
      (step c6wState Event.clear).isMaskInverted = false ∧
      (step c6wState Event.clear).pendingMaskGen = false ∧
      (step c6wState Event.clear).reportedMask = none ∧
      rasterize (step c6wState Event.clear) = none ∧
      (step c6wState Event.clear).linesHistory =
        (if c6wState.lines.isEmpty then c6wState.linesHistory
         else c6wState.linesHistory ++ [c6wState.lines])) :=
  ⟨rfl, c6_clear_amended c6wState rfl⟩

/-! ## C7: undo -/

/-- C7: with a non-empty history stack, `undo()` replaces the live
Stroke Model with the top (most recent) snapshot and pops it; with an
empty stack it is a complete no-op — the state, and hence the rendered
output, is unchanged and no error occurs. -/
theorem c7_undo_pop_or_noop (s : EditorState) :
    (s.linesHistory = [] → step s Event.undo = s) ∧
    (s.imageLoaded = true → ∀ prev, s.linesHistory.getLast? = some prev →
      (step s Event.undo).lines = prev ∧
      (step s Event.undo).linesHistory = s.linesHistory.dropLast) := by
  constructor
  · intro h
    simp only [step]
    by_cases hi : s.imageLoaded = true
    · rw [if_pos hi, h]
      rfl
    · rw [if_neg hi]
  · intro hi prev hp
    simp only [step, if_pos hi, hp]
    exact ⟨(regenEffect_lines _).1, (regenEffect_lines _).2.1⟩

def c7PrevLines : List Line := [⟨Tool.brush, [5, 5, 6, 6], 2, 9⟩]

def c7State : EditorState :=
  { baseState with
    lines := [⟨Tool.brush, [5, 5, 6, 6], 2, 9⟩, ⟨Tool.eraser, [7, 7], 2, 12⟩],
    linesHistory := [c7PrevLines] }

theorem c7_undo_pop_or_noop_witness :
    (baseState.linesHistory = [] ∧ step baseState Event.undo = baseState) ∧
    (c7State.linesHistory.getLast? = some c7PrevLines ∧
      (step c7State Event.undo).lines = c7PrevLines ∧
      (step c7State Event.undo).linesHistory = []) :=
  ⟨⟨rfl, (c7_undo_pop_or_noop baseState).1 rfl⟩,
    ⟨rfl, ((c7_undo_pop_or_noop c7State).2 rfl c7PrevLines rfl).1,
      ((c7_undo_pop_or_noop c7State).2 rfl c7PrevLines rfl).2⟩⟩

/-! ## C8: image switch -/

/-- C8: changing the source image discards all strokes, the whole
history and the inversion flag, cancels any pending debounced
rasterization, and immediately reports "no mask"; and firing the (now
cancelled) debounce timer right after the switch changes nothing, so no
stale mask from the previous image is ever emitted. -/
theorem c8_image_switch_discards_and_cancels (s : EditorState) :
    (step s Event.imageChange).lines = [] ∧
    (step s Event.imageChange).linesHistory = [] ∧
    (step s Event.imageChange).isMaskInverted = false ∧
    (step s Event.imageChange).pendingMaskGen = false ∧
    (step s Event.imageChange).reportedMask = none ∧
    step (step s Event.imageChange) Event.timerFire = step s Event.imageChange :=
  ⟨rfl, rfl, rfl, rfl, rfl, rfl⟩

/-! ## C10: inert strokes and the debounced emission -/

/-- Replaying strokes that are all erasers or too short to draw leaves
every pixel at the background color. -/
theorem foldl_paint_inert (inverted : Bool) (sx sy : ℚ) (p : ℚ × ℚ) :
    ∀ lines : List Line,
      (∀ l ∈ lines, l.tool = Tool.eraser ∨ l.points.length < 4) →
      lines.foldl
        (fun c l => if drawable l && lineCovers sx sy l p then toolColor inverted l.tool else c)
        (bgColor inverted) = bgColor inverted
  | [], _ => rfl
  | l :: ls, h => by
    simp only [List.foldl_cons]
    have hrest : ∀ l2 ∈ ls, l2.tool = Tool.eraser ∨ l2.points.length < 4 :=
      fun l2 hl2 => h l2 (List.mem_cons_of_mem l hl2)
    rcases h l (List.mem_cons_self l ls) with ht | hp
    · by_cases hc : (drawable l && lineCovers sx sy l p) = true
      · rw [if_pos hc, ht]
        exact foldl_paint_inert inverted sx sy p ls hrest
      · rw [if_neg hc]
        exact foldl_paint_inert inverted sx sy p ls hrest
    · have hd : drawable l = false := by
        simp only [drawable, decide_eq_false_iff_not]
        omega
      by_cases hc : (drawable l && lineCovers sx sy l p) = true
      · rw [hd] at hc
        exact absurd hc (by simp)
      · rw [if_neg hc]
        exact foldl_paint_inert inverted sx sy p ls hrest

theorem pixelColorAux_inert (inverted : Bool) (sx sy : ℚ) (p : ℚ × ℚ)
    (lines : List Line)
    (h : ∀ l ∈ lines, l.tool = Tool.eraser ∨ l.points.length < 4) :
    pixelColorAux inverted sx sy lines p = bgColor inverted :=
  foldl_paint_inert inverted sx sy p lines h

def c10State : EditorState :=
  { baseState with
    lines := [⟨Tool.eraser, [0, 0, 3, 3], 2, 7⟩, ⟨Tool.brush, [1, 1], 2, 8⟩] }

def c10Mask : Mask := (rasterize c10State).getD defaultMask

/-- C10: on a non-empty Stroke Model whose strokes are all Erase strokes
or have fewer than two points, the body of `generateMask` does compute an
all-background bitmap of native dimensions rather than the "no mask"
signal (first two conjuncts: erasers draw the background color and short
strokes are skipped, so every pixel binarizes to background black). But
the program never emits that bitmap: `debouncedGenerateMask` is a
`useCallback` with an empty dependency list, so the fired debounce timer
invokes the first render's `generateMask` closure — `image` undefined,
`lines` empty — which returns at its guard. Firing the pending timer
therefore consumes it and leaves the reported mask at `none` (last two
conjuncts): the emission the claim asserts never happens. -/
theorem c10_stale_debounce_never_emits :
    (∀ l ∈ c10State.lines, l.tool = Tool.eraser ∨ l.points.length < 4) ∧
    (∃ m : Mask, rasterize c10State = some m ∧
      m.width = c10State.imageSize.1 ∧ m.height = c10State.imageSize.2 ∧
      (∀ x y : ℕ, m.pixel x y = Color.black)) ∧
    (step { c10State with pendingMaskGen := true } Event.timerFire).reportedMask = none ∧
    (step { c10State with pendingMaskGen := true } Event.timerFire).pendingMaskGen = false := by
  refine ⟨by decide, ⟨c10Mask, rfl, rfl, rfl, ?_⟩, rfl, rfl⟩
  intro x y
  show binarize (pixelColorAux c10State.isMaskInverted
      ((c10State.imageSize.1 : ℚ) / c10State.stageSize.1)
      ((c10State.imageSize.2 : ℚ) / c10State.stageSize.2)
      c10State.lines ((x : ℚ), (y : ℚ))) = Color.black
  rw [pixelColorAux_inert c10State.isMaskInverted
      ((c10State.imageSize.1 : ℚ) / c10State.stageSize.1)
      ((c10State.imageSize.2 : ℚ) / c10State.stageSize.2)
      ((x : ℚ), (y : ℚ)) c10State.lines (by decide)]
  decide
